import Mathlib

/-!
Verification of the cyverse/irods-adm repository: the data-usage-report
pipeline (data-usage-report/main.py) and the trash-timestamp utility
(ensure_trash_ts.py).

The pipeline runs five SQL stages against the iRODS ICAT catalog inside one
transaction: resolve a root-resource list to a resource set
(create_store_resc_table), classify collections into projects
(create_proj_coll_table), join data objects restricted to the resource set
(create_proj_data_table), compute the public-access object set
(create_pub_obj_table) and its intersection with the project data
(create_pub_proj_data_table), then roll byte volumes up per project with
rounding to milli-GiB (gen_report).  The catalog tables are embedded as
lists of rows and each SQL statement as a list transformation with the same
semantics.
-/

namespace IrodsAdm

/-! ## SQL numeric helpers

PostgreSQL ROUND(x::NUMERIC, 3) rounds half away from zero to three decimal
digits.  `ratFloor` is an executable floor on rationals (kernel-reducible,
unlike the FloorRing projection), and `sqlRound3` is ROUND(·, 3).  The SQL
expression `x / 2^30` takes a detour through double precision; it is embedded
as exact rational division, which agrees on every byte count below 2^53. -/

/-- Executable floor of a rational, via flooring integer division. -/
def ratFloor (q : ℚ) : ℤ := q.num.fdiv q.den

/-- Embeds ROUND(q::NUMERIC, 3): round half away from zero at the third
decimal digit.  The branch is on the sign of the numerator so that the
definition evaluates inside the kernel. -/
def sqlRound3 (q : ℚ) : ℚ :=
  if 0 ≤ q.num then (ratFloor (q * 1000 + 1/2) : ℚ) / 1000
  else -((ratFloor (-(q * 1000) + 1/2) : ℚ) / 1000)

/-! ## Catalog data model

One structure per ICAT table actually read by the pipeline, with the columns
the SQL statements touch.  `resc_parent` is stored as text in the catalog and
compared against `resc_id::TEXT`, hence the `String` type. -/

/-- A row of r_resc_main. -/
structure Resc where
  resc_id : Nat
  resc_name : String
  resc_net : String
  resc_parent : String
deriving DecidableEq

/-- A row of r_coll_main. -/
structure Coll where
  coll_id : Nat
  coll_name : String
deriving DecidableEq

/-- A row of r_data_main (one replica record: id, collection, byte size,
storing resource). -/
structure DataRec where
  data_id : Nat
  coll_id : Nat
  data_size : Nat
  resc_id : Nat
deriving DecidableEq

/-- A row of r_objt_access (access-control entry). -/
structure AccessRec where
  object_id : Nat
  user_id : Nat
deriving DecidableEq

/-- A row of r_user_main. -/
structure UserRec where
  user_id : Nat
  user_name : String
deriving DecidableEq

/-- A row of r_zone_main. -/
structure ZoneRec where
  zone_name : String
  zone_type_name : String
deriving DecidableEq

/-- The catalog snapshot the transaction reads. -/
structure Catalog where
  r_resc_main : List Resc
  r_coll_main : List Coll
  r_data_main : List DataRec
  r_objt_access : List AccessRec
  r_user_main : List UserRec
  r_zone_main : List ZoneRec
deriving DecidableEq

/-- The failure modes of the pipeline.  invalidArgument is the spec's
taxonomy entry (in the Python code these conditions surface as raised
exceptions: a SQL syntax error for an empty IN list, a TypeError for a
missing local zone row); undefinedColumn is PostgreSQL rejecting a query
that references a column its table does not have. -/
inductive PipelineError where
  | invalidArgument : String → PipelineError
  | undefinedColumn : String → PipelineError
deriving DecidableEq

/-! ## Resource Set Resolver (create_store_resc_table)

The recursive CTE
  WITH RECURSIVE resc_hier(resc_id, resc_net) AS (
      SELECT resc_id, resc_net FROM r_resc_main WHERE resc_name IN (roots)
      UNION SELECT m.resc_id, m.resc_net
      FROM resc_hier AS h JOIN r_resc_main AS m ON m.resc_parent = h.resc_id::TEXT
      WHERE h.resc_net = 'EMPTY_RESC_HOST')
is a least fixed point over (resc_id, resc_net) rows; it is embedded as a
fueled closure, with fuel one more than the table size, which suffices to
reach the fixed point. -/

/-- All (resc_id, resc_net) rows of r_resc_main; the universe the closure
lives in. -/
def rescRows (cat : Catalog) : List (Nat × String) :=
  cat.r_resc_main.map (fun r => (r.resc_id, r.resc_net))

/-- The seed rows: resources whose name is in the root list. -/
def rescSeed (cat : Catalog) (roots : List String) : List (Nat × String) :=
  (cat.r_resc_main.filter (fun r => roots.contains r.resc_name)).map
    (fun r => (r.resc_id, r.resc_net))

/-- One step of the recursive term: rows of resources whose parent is a
current row whose network attribute is the interior sentinel. -/
def rescChildRows (cat : Catalog) (s : List (Nat × String)) : List (Nat × String) :=
  (cat.r_resc_main.filter (fun m =>
      s.any (fun h => h.2 == "EMPTY_RESC_HOST" && m.resc_parent == toString h.1))).map
    (fun m => (m.resc_id, m.resc_net))

/-- The rows a step would add: child rows not already present (UNION
deduplicates). -/
def rescNew (cat : Catalog) (s : List (Nat × String)) : List (Nat × String) :=
  ((rescChildRows cat s).dedup).filter (fun p => !s.contains p)

/-- Fueled iteration to the fixed point of `rescNew`. -/
def closeResc (cat : Catalog) : Nat → List (Nat × String) → List (Nat × String)
  | 0, s => s
  | fuel + 1, s =>
    let nw := rescNew cat s
    if nw = [] then s else closeResc cat fuel (s ++ nw)

/-- The rows of the recursive CTE resc_hier. -/
def resc_hier (cat : Catalog) (roots : List String) : List (Nat × String) :=
  closeResc cat (cat.r_resc_main.length + 1) ((rescSeed cat roots).dedup)

/-- Embeds create_store_resc_table: the id column inserted into store_resc.
With an empty root list the interpolated SQL is WHERE resc_name IN (), a
PostgreSQL syntax error that aborts the transaction; this is the spec's
InvalidArgument case. -/
def create_store_resc_table (cat : Catalog) (roots : List String) :
    Except PipelineError (List Nat) :=
  if roots = [] then .error (.invalidArgument "empty root resource list")
  else .ok ((resc_hier cat roots).map (fun p => p.1))

/-! ## Project Collection Classifier (create_proj_coll_table)

  INSERT INTO proj_coll (proj, coll_id)
  SELECT REGEXP_REPLACE(c.coll_name, '/zone/home/shared/([^/]+).*', '\1'), c.coll_id
  FROM r_coll_main c
  WHERE c.coll_name LIKE '/zone/home/shared/%'
  AND c.coll_name NOT SIMILAR TO '/zone/home/shared/commons_repo(/%)?'

LIKE 'p%' is a prefix test and SIMILAR TO anchors at both ends, so the
exclusion is equality with the commons_repo path or having it (slash
included) as a prefix.  Zone names contain no LIKE or regex metacharacters. -/

/-- The zone's shared-projects root, trailing slash included. -/
def sharedRoot (zone : String) : String := "/" ++ zone ++ "/home/shared/"

/-- The reserved commons_repo path. -/
def commonsRepoPath (zone : String) : String := sharedRoot zone ++ "commons_repo"

/-- The reserved commons_repo namespace, as a path prefix. -/
def commonsRepoSub (zone : String) : String := sharedRoot zone ++ "commons_repo/"

/-- Embeds coll_name LIKE '/zone/home/shared/%'. -/
def likeShared (zone name : String) : Bool :=
  (sharedRoot zone).data.isPrefixOf name.data

/-- Embeds coll_name SIMILAR TO '/zone/home/shared/commons_repo(/%)?'.
SIMILAR TO anchors at both ends; inside the pattern '_' is a wildcard for
exactly one arbitrary character and '(/%)?' optionally matches a slash
followed by anything, so a name matches when it is the shared root,
then "commons", then any single character, then "repo", and then either
nothing or a slash with an arbitrary remainder. -/
def similarCommons (zone name : String) : Bool :=
  ((sharedRoot zone).data ++ "commons".data).isPrefixOf name.data &&
  (match name.data.drop ((sharedRoot zone).data ++ "commons".data).length with
   | [] => false
   | _ :: rest2 =>
     "repo".data.isPrefixOf rest2 &&
     ((rest2.drop "repo".data.length).isEmpty ||
       (rest2.drop "repo".data.length).head? == some '/'))

/-- The WHERE clause of the proj_coll insert. -/
def collSelected (zone : String) (c : Coll) : Bool :=
  likeShared zone c.coll_name && !similarCommons zone c.coll_name

/-- First path segment: characters up to the next slash. -/
def firstSeg (cs : List Char) : List Char := cs.takeWhile (fun c => c != '/')

/-- Embeds REGEXP_REPLACE(name, '/zone/home/shared/([^/]+).*', '\1') as
applied to names that passed the LIKE filter (so the shared root is a
prefix and, for well-formed paths with no empty segment, the leftmost
match starts at the beginning): the whole name is replaced by its first
segment below the root; with no match (nothing after the root, or an
empty segment) the name is returned unchanged. -/
def projOf (zone : String) (name : String) : String :=
  let seg := firstSeg (name.data.drop (sharedRoot zone).data.length)
  if seg = [] then name else String.mk seg

/-- A row of the temporary table proj_coll. -/
structure ProjCollRow where
  proj : String
  coll_id : Nat
deriving DecidableEq

/-- Embeds create_proj_coll_table's INSERT. -/
def create_proj_coll_table (cat : Catalog) (zone : String) : List ProjCollRow :=
  (cat.r_coll_main.filter (collSelected zone)).map
    (fun c => ⟨projOf zone c.coll_name, c.coll_id⟩)

/-! ## Project Data Aggregator (create_proj_data_table)

  INSERT INTO proj_data (proj, coll_id, data_id, data_size)
  SELECT c.proj, c.coll_id, d.data_id, d.data_size
  FROM proj_coll AS c JOIN r_data_main AS d ON d.coll_id = c.coll_id
  WHERE d.resc_id IN (SELECT id FROM store_resc) -/

/-- A row of the temporary table proj_data. -/
structure ProjDataRow where
  proj : String
  coll_id : Nat
  data_id : Nat
  data_size : Nat
deriving DecidableEq

/-- Embeds create_proj_data_table's INSERT. -/
def create_proj_data_table (cat : Catalog) (pc : List ProjCollRow)
    (store : List Nat) : List ProjDataRow :=
  pc.flatMap (fun c =>
    (cat.r_data_main.filter (fun d =>
        d.coll_id == c.coll_id && store.contains d.resc_id)).map
      (fun d => ⟨c.proj, c.coll_id, d.data_id, d.data_size⟩))

/-! ## Public Access Filter (create_pub_obj_table, create_pub_proj_data_table)

  INSERT INTO pub_obj (id) SELECT object_id FROM r_objt_access
  WHERE user_id = (SELECT user_id FROM r_user_main WHERE user_name = 'public')

The scalar subquery yields NULL (hence no rows) when no user is named
public; the catalog's unique-name invariant makes at most one row, embedded
as the first match.

  INSERT INTO pub_proj_data (proj, data_id, data_size)
  SELECT proj, data_id, data_size FROM proj_data
  WHERE coll_id IN (SELECT id FROM pub_obj) AND data_id IN (SELECT id FROM pub_obj) -/

/-- Embeds create_pub_obj_table: object ids carrying an access entry for the
public principal. -/
def create_pub_obj_table (cat : Catalog) : List Nat :=
  match (cat.r_user_main.filter (fun u => u.user_name == "public")).map
      (fun u => u.user_id) with
  | [] => []
  | uid :: _ =>
    (cat.r_objt_access.filter (fun a => a.user_id == uid)).map
      (fun a => a.object_id)

/-- A row of the temporary table pub_proj_data. -/
structure PubProjDataRow where
  proj : String
  data_id : Nat
  data_size : Nat
deriving DecidableEq

/-- Embeds create_pub_proj_data_table's INSERT. -/
def create_pub_proj_data_table (pd : List ProjDataRow) (po : List Nat) :
    List PubProjDataRow :=
  (pd.filter (fun r => po.contains r.coll_id && po.contains r.data_id)).map
    (fun r => ⟨r.proj, r.data_id, r.data_size⟩)

/-! ## Report Rollup (the final query of gen_report)

  SELECT ROUND((tot_vol / 2^30)::NUMERIC, 3), ROUND((pub_vol / 2^30)::NUMERIC, 3),
         ROUND(((tot_vol - pub_vol) / 2^30)::NUMERIC, 3), proj, creator, owner
  FROM (SELECT a.proj, SUM(a.data_size) AS tot_vol,
               COALESCE(SUM(p.data_size), 0) AS pub_vol, ...
        FROM proj_data AS a
        LEFT JOIN pub_proj_data AS p ON p.data_id = a.data_id
        LEFT JOIN (...) pc ON pc.proj = a.proj
        GROUP BY a.proj) AS t
  ORDER BY proj

The LEFT JOIN on data_id is embedded row by row (a proj_data row with no
match keeps a NULL right side; with matches it is repeated per match), the
sums per group ignore NULLs, and COALESCE makes an all-NULL public sum 0.
The creator/owner columns the query also reads are covered separately by
the schema check below: the subquery references columns proj_coll does not
have. -/

/-- The LEFT JOIN partners of one proj_data row. -/
def joinRow (ppd : List PubProjDataRow) (a : ProjDataRow) :
    List (ProjDataRow × Option PubProjDataRow) :=
  match ppd.filter (fun p => p.data_id == a.data_id) with
  | [] => [(a, none)]
  | ms => ms.map (fun p => (a, some p))

/-- proj_data LEFT JOIN pub_proj_data ON p.data_id = a.data_id. -/
def leftJoinPub (pd : List ProjDataRow) (ppd : List PubProjDataRow) :
    List (ProjDataRow × Option PubProjDataRow) :=
  pd.flatMap (joinRow ppd)

/-- SUM(a.data_size) over the joined rows of one project group. -/
def totVolQ (pd : List ProjDataRow) (ppd : List PubProjDataRow) (p : String) : ℚ :=
  (((leftJoinPub pd ppd).filter (fun r => r.1.proj == p)).map
    (fun r => (r.1.data_size : ℚ))).sum

/-- COALESCE(SUM(p.data_size), 0) over the joined rows of one project group:
SUM ignores the NULLs of unmatched rows and an empty sum is 0. -/
def pubVolQ (pd : List ProjDataRow) (ppd : List PubProjDataRow) (p : String) : ℚ :=
  (((leftJoinPub pd ppd).filter (fun r => r.1.proj == p)).map
    (fun r => match r.2 with
      | some q => (q.data_size : ℚ)
      | none => 0)).sum

/-- Byte-wise comparison of character lists, kernel-executable; ORDER BY on
text under the C collation. -/
def charListLe : List Char → List Char → Bool
  | [], _ => true
  | _ :: _, [] => false
  | a :: as, b :: bs =>
    if a.val < b.val then true
    else if b.val < a.val then false
    else charListLe as bs

/-- Insertion into a list sorted by `charListLe`. -/
def insertSorted (s : String) : List String → List String
  | [] => [s]
  | t :: ts => if charListLe s.data t.data then s :: t :: ts else t :: insertSorted s ts

/-- Insertion sort by `charListLe`; ORDER BY proj. -/
def sortStrs : List String → List String
  | [] => []
  | s :: ss => insertSorted s (sortStrs ss)

/-- The GROUP BY keys, in output order. -/
def reportProjs (pd : List ProjDataRow) : List String :=
  sortStrs ((pd.map (fun r => r.proj)).dedup)

/-- A row of the final report (its numeric and project columns). -/
structure ReportRow where
  Total : ℚ
  Public : ℚ
  Private : ℚ
  Project : String
deriving DecidableEq

/-- One output row of the final query for one project group. -/
def mkReportRow (pd : List ProjDataRow) (ppd : List PubProjDataRow)
    (p : String) : ReportRow :=
  ⟨sqlRound3 (totVolQ pd ppd p / 2^30),
   sqlRound3 (pubVolQ pd ppd p / 2^30),
   sqlRound3 ((totVolQ pd ppd p - pubVolQ pd ppd p) / 2^30),
   p⟩

/-- All rows of the final query. -/
def reportRows (pd : List ProjDataRow) (ppd : List PubProjDataRow) :
    List ReportRow :=
  (reportProjs pd).map (mkReportRow pd ppd)

/-- The columns of the TEMPORARY table proj_coll as declared in
create_proj_coll_table: only proj and coll_id (the creator/owner columns
exist only in a commented-out variant of the insert). -/
def projCollColumns : List String := ["proj", "coll_id"]

/-- The proj_coll columns the creator/owner aggregation subquery of the
final report query references: STRING_AGG(DISTINCT creator, ...),
STRING_AGG(DISTINCT owner, ...), GROUP BY proj. -/
def reportCreatorOwnerRefs : List String := ["proj", "creator", "owner"]

/-- SQL name resolution for that subquery: every referenced column must
exist in the declared proj_coll schema. -/
def creatorOwnerRefsResolve : Bool :=
  reportCreatorOwnerRefs.all (fun c => projCollColumns.contains c)

/-- Embeds gen_report: the five table-building stages and the final query,
inside one transaction; any failure aborts the whole computation with no
partial result.  PostgreSQL rejects the final SELECT when the creator/owner
references do not resolve against proj_coll (undefined column), before any
row is produced; only with resolving references would the SELECT yield the
rollup rows. -/
def gen_report (cat : Catalog) (zone : String) (roots : List String) :
    Except PipelineError (List ReportRow) :=
  match create_store_resc_table cat roots with
  | .error e => .error e
  | .ok store =>
    let pc := create_proj_coll_table cat zone
    let pd := create_proj_data_table cat pc store
    let po := create_pub_obj_table cat
    let ppd := create_pub_proj_data_table pd po
    if creatorOwnerRefsResolve then .ok (reportRows pd ppd)
    else .error (.undefinedColumn "creator")

/-- Embeds get_local_zone: SELECT zone_name FROM r_zone_main WHERE
zone_type_name = 'local', fetchone.  With no row the Python code crashes
subscripting None; the spec's InvalidArgument case. -/
def get_local_zone (cat : Catalog) : Except PipelineError String :=
  match (cat.r_zone_main.filter (fun z => z.zone_type_name == "local")).map
      (fun z => z.zone_name) with
  | [] => .error (.invalidArgument "unresolvable zone")
  | z :: _ => .ok z

/-- The main flow around the core: resolve the zone, then generate the
report.  Any error yields no report rows at all. -/
def runPipeline (cat : Catalog) (roots : List String) :
    Except PipelineError (List ReportRow) :=
  match get_local_zone cat with
  | .error e => .error e
  | .ok zone => gen_report cat zone roots

/-! ## The interpolated IN list of create_store_resc_table

The Python code builds the seed query with
  resources_str = ", ".join(f"'{r}'" for r in root_resources)
and splices `resources_str` into the SQL text, so each root name lands
directly between single quotes.  To reason about what the resulting text
means, a small scanner recovers the comma-separated single-quoted literal
list the SQL lexer would see (a doubled quote inside a literal is the SQL
escape for one quote character). -/

/-- Embeds the Python string interpolation of one root name. -/
def quoteRoot (r : String) : String := "'" ++ r ++ "'"

/-- Embeds ", ".join. -/
def commaJoin : List String → String
  | [] => ""
  | [s] => s
  | s :: s2 :: rest => s ++ ", " ++ commaJoin (s2 :: rest)

/-- The text spliced into WHERE resc_name IN (...). -/
def resourcesStr (roots : List String) : String :=
  commaJoin (roots.map quoteRoot)

/-- Scans the body of a single-quoted SQL literal, the opening quote already
consumed: returns the literal's characters and the text after the closing
quote, decoding a doubled quote as one quote character. -/
def scanLit : List Char → Option (List Char × List Char)
  | [] => none
  | [c] => if c = '\'' then some ([], []) else none
  | c :: c2 :: rest =>
    if c = '\'' then
      if c2 = '\'' then (scanLit rest).map (fun p => ('\'' :: p.1, p.2))
      else some ([], c2 :: rest)
    else (scanLit (c2 :: rest)).map (fun p => (c :: p.1, p.2))

/-- Parses a nonempty comma-space-separated list of single-quoted SQL string
literals, the shape the seed query's IN list must have; `none` on any other
shape (a syntax error in the query). -/
def parseInList : Nat → List Char → Option (List String)
  | _, [] => none
  | 0, _ :: _ => none
  | fuel + 1, c :: cs =>
    if c = '\'' then
      match scanLit cs with
      | none => none
      | some (lit, rest) =>
        match rest with
        | [] => some [String.mk lit]
        | ',' :: ' ' :: rest2 =>
          (parseInList fuel rest2).map (fun ls => String.mk lit :: ls)
        | _ => none
    else none

/-- The literal list the SQL lexer reads off the interpolated text. -/
def parseRootLiterals (s : String) : Option (List String) :=
  parseInList s.data.length s.data

/-- The seed rows the constructed query text selects: the resources whose
name is one of the parsed literals; `none` when the text does not lex as a
literal list. -/
def seedRowsOfSql (cat : Catalog) (s : String) : Option (List (Nat × String)) :=
  (parseRootLiterals s).map (fun lits =>
    (cat.r_resc_main.filter (fun r => lits.contains r.resc_name)).map
      (fun r => (r.resc_id, r.resc_net)))

/-! ## The trash-timestamp utility (ensure_trash_ts.py)

add_coll_avu and add_obj_avu attach the AVU ipc::trash_timestamp with value
"0" ++ the current epoch second, but only when no attribute of that name is
present.  The python-irodsclient metadata of an entry is embedded as a list
of (attribute name, value) pairs; the keyed assignment appends the AVU. -/

/-- The metadata of a collection or data object: its AVUs as (name, value)
pairs. -/
structure AvuState where
  metadata : List (String × String)
deriving DecidableEq

/-- The attribute names present, metadata.keys(). -/
def metadataKeys (s : AvuState) : List String := s.metadata.map (fun a => a.1)

/-- Embeds add_coll_avu: attach ipc::trash_timestamp to a collection only
when absent, with value "0" prepended to the integer epoch time. -/
def add_coll_avu (epoch_time : Nat) (col : AvuState) : AvuState :=
  if "ipc::trash_timestamp" ∈ metadataKeys col then col
  else ⟨col.metadata ++ [("ipc::trash_timestamp", "0" ++ toString epoch_time)]⟩

/-- Embeds add_obj_avu: the same guarded attachment for a data object. -/
def add_obj_avu (epoch_time : Nat) (obj : AvuState) : AvuState :=
  if "ipc::trash_timestamp" ∈ metadataKeys obj then obj
  else ⟨obj.metadata ++ [("ipc::trash_timestamp", "0" ++ toString epoch_time)]⟩

/-! ## Concrete catalog snapshots

`catA` is the spec's golden scenario: one interior root resource with one
leaf child, one project collection with one public data object of exactly
2^30 bytes.  `catB` differs in holding two 322123-byte objects, one public
and one not, which exercises the rounding of the Private column.
`catNoZone` has no local zone row. -/

/-- Golden scenario catalog. -/
def catA : Catalog :=
  ⟨[⟨1, "resA", "EMPTY_RESC_HOST", ""⟩, ⟨2, "resA-leaf", "leaf.example.org", "1"⟩],
   [⟨10, "/zoneX/home/shared/proj1"⟩, ⟨11, "/zoneX/home/shared/commons_repo/x"⟩],
   [⟨100, 10, 1073741824, 2⟩],
   [⟨10, 50⟩, ⟨100, 50⟩],
   [⟨50, "public"⟩],
   [⟨"zoneX", "local"⟩]⟩

/-- Rounding catalog: two objects of 322123 bytes, only one public. -/
def catB : Catalog :=
  ⟨[⟨1, "resA", "EMPTY_RESC_HOST", ""⟩, ⟨2, "resA-leaf", "leaf.example.org", "1"⟩],
   [⟨10, "/zoneX/home/shared/proj1"⟩],
   [⟨100, 10, 322123, 2⟩, ⟨101, 10, 322123, 2⟩],
   [⟨10, 50⟩, ⟨100, 50⟩],
   [⟨50, "public"⟩],
   [⟨"zoneX", "local"⟩]⟩

/-- A catalog with no local zone row. -/
def catNoZone : Catalog :=
  ⟨[⟨1, "resA", "EMPTY_RESC_HOST", ""⟩], [], [], [], [], [⟨"zoneX", "remote"⟩]⟩

/-- A catalog with one collection whose name commonsXrepo differs from the
reserved commons_repo only at the wildcard position of the SIMILAR TO
pattern. -/
def catC : Catalog :=
  ⟨[], [⟨12, "/zoneX/home/shared/commonsXrepo"⟩], [], [], [], [⟨"zoneX", "local"⟩]⟩

/-! ## Lemmas about the rounding helpers -/

lemma ratFloor_eq_floor (q : ℚ) : ratFloor q = ⌊q⌋ := by
  rw [Rat.floor_def]
  exact Int.fdiv_eq_ediv q.num (Int.ofNat_nonneg q.den)

lemma sqlRound3_of_nonneg {q : ℚ} (h : 0 ≤ q) :
    sqlRound3 q = (⌊q * 1000 + 1/2⌋ : ℚ) / 1000 := by
  rw [sqlRound3, if_pos (Rat.num_nonneg.mpr h), ratFloor_eq_floor]

lemma sqlRound3_nonneg {q : ℚ} (h : 0 ≤ q) : 0 ≤ sqlRound3 q := by
  rw [sqlRound3_of_nonneg h]
  have h1 : (0 : ℤ) ≤ ⌊q * 1000 + 1/2⌋ := by
    rw [Int.le_floor]
    push_cast
    nlinarith
  positivity

lemma sqlRound3_mono {a b : ℚ} (ha : 0 ≤ a) (hab : a ≤ b) :
    sqlRound3 a ≤ sqlRound3 b := by
  rw [sqlRound3_of_nonneg ha, sqlRound3_of_nonneg (ha.trans hab)]
  have h1 : ⌊a * 1000 + 1/2⌋ ≤ ⌊b * 1000 + 1/2⌋ := by
    apply Int.floor_mono
    nlinarith
  have h2 : ((⌊a * 1000 + 1/2⌋ : ℤ) : ℚ) ≤ ((⌊b * 1000 + 1/2⌋ : ℤ) : ℚ) := by
    exact_mod_cast h1
  linarith

/-! ## Claim theorems -/

/-- C10: the trash-tagging operations are idempotent: add_coll_avu and
add_obj_avu attach the ipc::trash_timestamp attribute only when no attribute
of that name is present, so a second application (at any later epoch time)
leaves the entry's metadata, and hence the original timestamp value,
unchanged. -/
theorem C10_trash_avu_idempotent :
    ∀ (t t2 : Nat) (col obj : AvuState),
      add_coll_avu t2 (add_coll_avu t col) = add_coll_avu t col ∧
      add_obj_avu t2 (add_obj_avu t obj) = add_obj_avu t obj := by
  intro t t2 col obj
  constructor
  · by_cases h : "ipc::trash_timestamp" ∈ metadataKeys col
    · simp [add_coll_avu, h]
    · have h2 : "ipc::trash_timestamp" ∈
          metadataKeys (add_coll_avu t col) := by
        rw [add_coll_avu, if_neg h, metadataKeys]
        exact List.mem_map_of_mem _
          (List.mem_append_right _ (List.mem_singleton_self _))
      rw [add_coll_avu, if_pos h2]
  · by_cases h : "ipc::trash_timestamp" ∈ metadataKeys obj
    · simp [add_obj_avu, h]
    · have h2 : "ipc::trash_timestamp" ∈
          metadataKeys (add_obj_avu t obj) := by
        rw [add_obj_avu, if_neg h, metadataKeys]
        exact List.mem_map_of_mem _
          (List.mem_append_right _ (List.mem_singleton_self _))
      rw [add_obj_avu, if_pos h2]

/-- C2: the creator/owner aggregation subquery of gen_report's final query
references the proj_coll columns creator and owner, but the proj_coll table
created by create_proj_coll_table declares neither, so the reference does
not resolve and report generation cannot produce the Creator and Owner
fields the spec describes. -/
theorem C2_creator_owner_refs_unresolved :
    creatorOwnerRefsResolve = false ∧
    "creator" ∈ reportCreatorOwnerRefs ∧ "owner" ∈ reportCreatorOwnerRefs ∧
    "creator" ∉ projCollColumns ∧ "owner" ∉ projCollColumns := by
  decide

/-- C7: with an empty root-resource list, or with no resolvable local zone
in the catalog, the pipeline fails with an InvalidArgument error and
produces no report rows at all. -/
theorem C7_invalid_argument (cat : Catalog) (roots : List String) :
    (roots = [] →
      ∃ msg, runPipeline cat roots = .error (.invalidArgument msg)) ∧
    ((∀ z ∈ cat.r_zone_main, z.zone_type_name ≠ "local") →
      ∃ msg, runPipeline cat roots = .error (.invalidArgument msg)) := by
  constructor
  · intro hroots
    subst hroots
    cases hzl : (cat.r_zone_main.filter (fun z => z.zone_type_name == "local")).map
        (fun z => z.zone_name) with
    | nil =>
      exact ⟨"unresolvable zone", by simp [runPipeline, get_local_zone, hzl]⟩
    | cons z zs =>
      exact ⟨"empty root resource list",
        by simp [runPipeline, get_local_zone, hzl, gen_report,
          create_store_resc_table]⟩
  · intro hz
    have hfilter : cat.r_zone_main.filter (fun z => z.zone_type_name == "local") = [] := by
      rw [List.filter_eq_nil_iff]
      intro z hmem
      simpa using hz z hmem
    refine ⟨"unresolvable zone", ?_⟩
    rw [runPipeline, get_local_zone, hfilter]
    rfl

/-- Witness for C7 at a concrete catalog with no local zone and an empty
root list. -/
theorem C7_witness :
    (([] : List String) = [] ∧
      (∀ z ∈ catNoZone.r_zone_main, z.zone_type_name ≠ "local")) ∧
    (∃ msg, runPipeline catNoZone [] = .error (.invalidArgument msg)) ∧
    (∃ msg, runPipeline catNoZone [] = .error (.invalidArgument msg)) :=
  ⟨⟨rfl, by decide⟩,
   (C7_invalid_argument catNoZone []).1 rfl,
   (C7_invalid_argument catNoZone []).2 (by decide)⟩

/-! ## Lemmas about the resource-set closure -/

lemma rescSeed_subset_rows (cat : Catalog) (roots : List String) :
    ∀ x ∈ rescSeed cat roots, x ∈ rescRows cat := by
  intro x hx
  rw [rescSeed] at hx
  obtain ⟨r, hr, rfl⟩ := List.mem_map.1 hx
  exact List.mem_map_of_mem _ (List.mem_filter.1 hr).1

lemma rescChildRows_subset_rows (cat : Catalog) (s : List (Nat × String)) :
    ∀ x ∈ rescChildRows cat s, x ∈ rescRows cat := by
  intro x hx
  rw [rescChildRows] at hx
  obtain ⟨m, hm, rfl⟩ := List.mem_map.1 hx
  exact List.mem_map_of_mem _ (List.mem_filter.1 hm).1

lemma mem_rescNew_iff (cat : Catalog) (s : List (Nat × String))
    (x : Nat × String) :
    x ∈ rescNew cat s ↔ x ∈ rescChildRows cat s ∧ x ∉ s := by
  rw [rescNew]
  simp [List.mem_filter, List.mem_dedup]

lemma closeResc_extends (cat : Catalog) :
    ∀ (fuel : Nat) (s : List (Nat × String)), ∀ x ∈ s, x ∈ closeResc cat fuel s := by
  intro fuel
  induction fuel with
  | zero => intro s x hx; exact hx
  | succ fuel ih =>
    intro s x hx
    rw [closeResc]
    by_cases h : rescNew cat s = []
    · simpa [h] using hx
    · simpa [h] using ih (s ++ rescNew cat s) x (List.mem_append_left _ hx)

lemma closeResc_subset_rows (cat : Catalog) :
    ∀ (fuel : Nat) (s : List (Nat × String)),
      (∀ x ∈ s, x ∈ rescRows cat) → ∀ x ∈ closeResc cat fuel s, x ∈ rescRows cat := by
  intro fuel
  induction fuel with
  | zero => intro s hs x hx; exact hs x hx
  | succ fuel ih =>
    intro s hs x hx
    rw [closeResc] at hx
    by_cases h : rescNew cat s = []
    · exact hs x (by simpa [h] using hx)
    · refine ih (s ++ rescNew cat s) ?_ x (by simpa [h] using hx)
      intro y hy
      rcases List.mem_append.1 hy with hy | hy
      · exact hs y hy
      · exact rescChildRows_subset_rows cat s y ((mem_rescNew_iff cat s y).1 hy).1

lemma rescNew_closeResc_eq_nil (cat : Catalog) :
    ∀ (fuel : Nat) (s : List (Nat × String)), s.Nodup →
      (∀ x ∈ s, x ∈ rescRows cat) →
      (rescRows cat).toFinset.card < fuel + s.length →
      rescNew cat (closeResc cat fuel s) = [] := by
  intro fuel
  induction fuel with
  | zero =>
    intro s hnd hsub hcard
    exfalso
    have h1 : s.length = s.toFinset.card := (List.toFinset_card_of_nodup hnd).symm
    have h2 : s.toFinset ⊆ (rescRows cat).toFinset := by
      intro x hx
      exact List.mem_toFinset.2 (hsub x (List.mem_toFinset.1 hx))
    have h3 : s.toFinset.card ≤ (rescRows cat).toFinset.card := Finset.card_le_card h2
    omega
  | succ fuel ih =>
    intro s hnd hsub hcard
    rw [closeResc]
    by_cases h : rescNew cat s = []
    · simp [h]
    · have hnil : (if rescNew cat s = [] then s
          else closeResc cat fuel (s ++ rescNew cat s)) =
          closeResc cat fuel (s ++ rescNew cat s) := if_neg h
      rw [hnil]
      have hnwnd : (rescNew cat s).Nodup := (List.nodup_dedup _).filter _
      have hdisj : s.Disjoint (rescNew cat s) := by
        intro x hxs hxn
        exact ((mem_rescNew_iff cat s x).1 hxn).2 hxs
      apply ih
      · exact List.nodup_append.2 ⟨hnd, hnwnd, hdisj⟩
      · intro y hy
        rcases List.mem_append.1 hy with hy | hy
        · exact hsub y hy
        · exact rescChildRows_subset_rows cat s y ((mem_rescNew_iff cat s y).1 hy).1
      · have hpos : 0 < (rescNew cat s).length := List.length_pos.2 h
        rw [List.length_append]
        omega

lemma resc_hier_new_nil (cat : Catalog) (roots : List String) :
    rescNew cat (resc_hier cat roots) = [] := by
  rw [resc_hier]
  apply rescNew_closeResc_eq_nil
  · exact List.nodup_dedup _
  · intro x hx
    exact rescSeed_subset_rows cat roots x (List.mem_dedup.1 hx)
  · have h1 : (rescRows cat).toFinset.card ≤ (rescRows cat).length :=
      List.toFinset_card_le _
    have h2 : (rescRows cat).length = cat.r_resc_main.length := List.length_map _ _
    omega

lemma resc_hier_seed (cat : Catalog) (roots : List String) :
    ∀ x ∈ rescSeed cat roots, x ∈ resc_hier cat roots := by
  intro x hx
  exact closeResc_extends cat _ _ x (List.mem_dedup.2 hx)

lemma resc_hier_subset_rows (cat : Catalog) (roots : List String) :
    ∀ x ∈ resc_hier cat roots, x ∈ rescRows cat := by
  intro x hx
  refine closeResc_subset_rows cat _ _ ?_ x hx
  intro y hy
  exact rescSeed_subset_rows cat roots y (List.mem_dedup.1 hy)

lemma resc_hier_closed (cat : Catalog) (roots : List String) {i : Nat}
    {net : String} (h : (i, net) ∈ resc_hier cat roots)
    (hnet : net = "EMPTY_RESC_HOST") (m : Resc) (hm : m ∈ cat.r_resc_main)
    (hp : m.resc_parent = toString i) :
    (m.resc_id, m.resc_net) ∈ resc_hier cat roots := by
  by_contra hnot
  have hchild : (m.resc_id, m.resc_net) ∈ rescChildRows cat (resc_hier cat roots) := by
    rw [rescChildRows]
    refine List.mem_map_of_mem _ (List.mem_filter.2 ⟨hm, ?_⟩)
    rw [List.any_eq_true]
    exact ⟨(i, net), h, by simp [hnet, hp]⟩
  have hnew : (m.resc_id, m.resc_net) ∈ rescNew cat (resc_hier cat roots) :=
    (mem_rescNew_iff cat _ _).2 ⟨hchild, hnot⟩
  rw [resc_hier_new_nil cat roots] at hnew
  exact absurd hnew (List.not_mem_nil _)

/-- C4: the resolved resource set contains every resource named in the root
list (an unknown name contributes nothing), is closed under taking children
of members whose network attribute is the interior sentinel, and is a fixed
point: one more visitation adds no row and further iteration leaves the set
unchanged. -/
theorem C4_resource_set_closure (cat : Catalog) (roots : List String)
    (hids : (cat.r_resc_main.map (fun r => r.resc_id)).Nodup) :
    (∀ r ∈ cat.r_resc_main, r.resc_name ∈ roots →
      r.resc_id ∈ (resc_hier cat roots).map (fun p => p.1)) ∧
    (∀ r ∈ cat.r_resc_main,
      r.resc_id ∈ (resc_hier cat roots).map (fun p => p.1) →
      r.resc_net = "EMPTY_RESC_HOST" →
      ∀ m ∈ cat.r_resc_main, m.resc_parent = toString r.resc_id →
        m.resc_id ∈ (resc_hier cat roots).map (fun p => p.1)) ∧
    rescNew cat (resc_hier cat roots) = [] ∧
    (∀ fuel, closeResc cat fuel (resc_hier cat roots) = resc_hier cat roots) ∧
    (∀ n, (∀ r ∈ cat.r_resc_main, r.resc_name ≠ n) →
      resc_hier cat (n :: roots) = resc_hier cat roots) := by
  refine ⟨?_, ?_, resc_hier_new_nil cat roots, ?_, ?_⟩
  · intro r hr hname
    have hseed : (r.resc_id, r.resc_net) ∈ rescSeed cat roots := by
      rw [rescSeed]
      exact List.mem_map_of_mem _ (List.mem_filter.2 ⟨hr, by simpa using hname⟩)
    exact List.mem_map_of_mem (fun p => p.1) (resc_hier_seed cat roots _ hseed)
  · intro r hr hin hnet m hm hp
    obtain ⟨pair, hpair, hfst⟩ := List.mem_map.1 hin
    obtain ⟨row, hrow, hrowp⟩ := List.mem_map.1 (resc_hier_subset_rows cat roots pair hpair)
    have hid : row.resc_id = r.resc_id := by
      have := congrArg Prod.fst hrowp
      simpa [hfst] using this
    have hrr : row = r := List.inj_on_of_nodup_map hids hrow hr hid
    have hpair2 : (r.resc_id, r.resc_net) ∈ resc_hier cat roots := by
      rw [← hrowp, hrr] at hpair
      exact hpair
    exact List.mem_map_of_mem _
      (resc_hier_closed cat roots hpair2 hnet m hm hp)
  · intro fuel
    cases fuel with
    | zero => rfl
    | succ fuel => simp [closeResc, resc_hier_new_nil cat roots]
  · intro n hn
    have hseed : rescSeed cat (n :: roots) = rescSeed cat roots := by
      rw [rescSeed, rescSeed]
      congr 1
      apply List.filter_congr
      intro r hr
      simp [List.contains_cons, hn r hr]
    rw [resc_hier, resc_hier, hseed]

/-- Witness for C4 on the golden catalog: the root resource resA is in the
resolved set and its leaf child is pulled in by the closure. -/
theorem C4_witness :
    ((catA.r_resc_main.map (fun r => r.resc_id)).Nodup) ∧
    2 ∈ (resc_hier catA ["resA"]).map (fun p => p.1) := by
  have T := C4_resource_set_closure catA ["resA"] (by decide)
  refine ⟨by decide, ?_⟩
  have h1 : (1 : Nat) ∈ (resc_hier catA ["resA"]).map (fun p => p.1) :=
    T.1 ⟨1, "resA", "EMPTY_RESC_HOST", ""⟩ (by decide) (by decide)
  exact T.2.1 ⟨1, "resA", "EMPTY_RESC_HOST", ""⟩ (by decide) h1 rfl
    ⟨2, "resA-leaf", "leaf.example.org", "1"⟩ (by decide) (by decide)

/-! ## Named pipeline stages

The intermediate tables of one gen_report run, as functions of the catalog,
zone and root list; gen_report with a nonempty root list returns exactly the
rollup of these. -/

/-- The ids inserted into store_resc. -/
def pipelineStore (cat : Catalog) (roots : List String) : List Nat :=
  (resc_hier cat roots).map (fun p => p.1)

/-- The proj_data table of the run. -/
def pipelinePD (cat : Catalog) (zone : String) (roots : List String) :
    List ProjDataRow :=
  create_proj_data_table cat (create_proj_coll_table cat zone)
    (pipelineStore cat roots)

/-- The pub_obj table of the run. -/
def pipelinePO (cat : Catalog) : List Nat := create_pub_obj_table cat

/-- The pub_proj_data table of the run. -/
def pipelinePPD (cat : Catalog) (zone : String) (roots : List String) :
    List PubProjDataRow :=
  create_pub_proj_data_table (pipelinePD cat zone roots) (pipelinePO cat)

lemma creatorOwnerRefsResolve_false : creatorOwnerRefsResolve = false := by
  decide

lemma gen_report_error (cat : Catalog) (zone : String) (roots : List String)
    (h : roots ≠ []) :
    gen_report cat zone roots = .error (.undefinedColumn "creator") := by
  rw [gen_report, create_store_resc_table, if_neg h]
  rfl

lemma gen_report_never_ok (cat : Catalog) (zone : String) (roots : List String) :
    ∀ rows, gen_report cat zone roots ≠ .ok rows := by
  intro rows
  by_cases h : roots = []
  · subst h
    rw [gen_report, create_store_resc_table, if_pos rfl]
    intro hcontra
    cases hcontra
  · rw [gen_report_error cat zone roots h]
    intro hcontra
    cases hcontra

/-! ## Uniqueness of key columns through the stages -/

lemma proj_coll_ids_nodup (cat : Catalog) (zone : String)
    (hc : (cat.r_coll_main.map (fun c => c.coll_id)).Nodup) :
    ((create_proj_coll_table cat zone).map (fun r => r.coll_id)).Nodup := by
  rw [create_proj_coll_table, List.map_map]
  exact hc.sublist ((List.filter_sublist _).map _)

lemma nodup_flatMap_of_pairwise {α β : Type} (l : List α) (f : α → List β)
    (h1 : ∀ a ∈ l, (f a).Nodup)
    (h2 : l.Pairwise (fun a b => ∀ x ∈ f a, x ∉ f b)) :
    (l.flatMap f).Nodup := by
  induction l with
  | nil => simp
  | cons a l ih =>
    rw [List.flatMap_cons, List.nodup_append]
    refine ⟨h1 a (List.mem_cons_self a l), ?_, ?_⟩
    · exact ih (fun x hx => h1 x (List.mem_cons_of_mem a hx))
        (List.pairwise_cons.1 h2).2
    · intro x hxa hxl
      obtain ⟨b, hb, hxb⟩ := List.mem_flatMap.1 hxl
      exact (List.pairwise_cons.1 h2).1 b hb x hxa hxb

lemma proj_data_ids_nodup (cat : Catalog) (pc : List ProjCollRow)
    (store : List Nat)
    (hd : (cat.r_data_main.map (fun d => d.data_id)).Nodup)
    (hpc : (pc.map (fun c => c.coll_id)).Nodup) :
    ((create_proj_data_table cat pc store).map (fun r => r.data_id)).Nodup := by
  rw [create_proj_data_table, List.map_flatMap]
  apply nodup_flatMap_of_pairwise
  · intro c _
    rw [List.map_map]
    exact hd.sublist ((List.filter_sublist _).map _)
  · have hpair : pc.Pairwise (fun a b => a.coll_id ≠ b.coll_id) :=
      List.pairwise_map.1 hpc
    refine hpair.imp ?_
    intro a b hab x hxa hxb
    rw [List.map_map, List.mem_map] at hxa hxb
    obtain ⟨d1, hd1, hx1⟩ := hxa
    obtain ⟨d2, hd2, hx2⟩ := hxb
    have hm1 := List.mem_filter.1 hd1
    have hm2 := List.mem_filter.1 hd2
    have hdd : d1 = d2 := by
      refine List.inj_on_of_nodup_map hd hm1.1 hm2.1 ?_
      show d1.data_id = d2.data_id
      rw [show d1.data_id = x from hx1, show d2.data_id = x from hx2]
    have hca : d1.coll_id = a.coll_id := by
      have := hm1.2
      simp only [Bool.and_eq_true, beq_iff_eq] at this
      exact this.1
    have hcb : d2.coll_id = b.coll_id := by
      have := hm2.2
      simp only [Bool.and_eq_true, beq_iff_eq] at this
      exact this.1
    have hfin : a.coll_id = b.coll_id := by
      rw [← hca, hdd, hcb]
    exact hab hfin

/-! ## The public join under key uniqueness -/

lemma filter_eq_singleton_of_nodup_map {α κ : Type} [DecidableEq κ]
    (f : α → κ) (l : List α) (hnd : (l.map f).Nodup) (a : α) (ha : a ∈ l) :
    l.filter (fun b => f b == f a) = [a] := by
  induction l with
  | nil => cases ha
  | cons b l ih =>
    rw [List.map_cons, List.nodup_cons] at hnd
    rcases List.mem_cons.1 ha with rfl | ha2
    · rw [List.filter_cons_of_pos (by simp)]
      have hhd : l.filter (fun c => f c == f a) = [] := by
        rw [List.filter_eq_nil_iff]
        intro c hcmem hfc
        exact hnd.1 ((beq_iff_eq.1 hfc) ▸ List.mem_map_of_mem f hcmem)
      rw [hhd]
    · have hne : f b ≠ f a := fun he => hnd.1 (he ▸ List.mem_map_of_mem f ha2)
      rw [List.filter_cons_of_neg (by simpa using hne)]
      exact ih hnd.2 ha2

lemma pub_proj_filter_eq (pd : List ProjDataRow) (po : List Nat)
    (hnd : (pd.map (fun r => r.data_id)).Nodup) (a : ProjDataRow) (ha : a ∈ pd) :
    (create_pub_proj_data_table pd po).filter (fun p => p.data_id == a.data_id) =
      if po.contains a.coll_id && po.contains a.data_id then
        [⟨a.proj, a.data_id, a.data_size⟩] else [] := by
  rw [create_pub_proj_data_table, List.filter_map]
  have hcomp : ((fun p : PubProjDataRow => p.data_id == a.data_id) ∘
      (fun r : ProjDataRow => (⟨r.proj, r.data_id, r.data_size⟩ : PubProjDataRow))) =
      fun r : ProjDataRow => r.data_id == a.data_id := rfl
  rw [hcomp, List.filter_filter]
  have hcomm : pd.filter
      (fun b => b.data_id == a.data_id &&
        (po.contains b.coll_id && po.contains b.data_id)) =
      (pd.filter (fun b => b.data_id == a.data_id)).filter
        (fun b => po.contains b.coll_id && po.contains b.data_id) := by
    rw [List.filter_filter]
    apply List.filter_congr
    intro b _
    exact Bool.and_comm _ _
  rw [hcomm, filter_eq_singleton_of_nodup_map (fun r => r.data_id) pd hnd a ha,
    List.filter_singleton]
  cases hb : po.contains a.coll_id && po.contains a.data_id with
  | true => rfl
  | false => rfl

lemma joinRow_eq (pd : List ProjDataRow) (po : List Nat)
    (hnd : (pd.map (fun r => r.data_id)).Nodup) (a : ProjDataRow) (ha : a ∈ pd) :
    joinRow (create_pub_proj_data_table pd po) a =
      if po.contains a.coll_id && po.contains a.data_id then
        [(a, some ⟨a.proj, a.data_id, a.data_size⟩)] else [(a, none)] := by
  rw [joinRow, pub_proj_filter_eq pd po hnd a ha]
  cases hb : po.contains a.coll_id && po.contains a.data_id with
  | true => simp [hb]
  | false => simp [hb]

/-! ## Group sums of the final query -/

lemma filter_map_const_snd {β : Type} (a : ProjDataRow) (ms : List β)
    (f : β → ProjDataRow × Option PubProjDataRow)
    (hf : ∀ b, (f b).1 = a) (p : String) :
    (ms.map f).filter (fun r => r.1.proj == p) =
      if a.proj == p then ms.map f else [] := by
  rw [List.filter_map]
  cases hp : a.proj == p with
  | true =>
    rw [if_pos rfl]
    congr 1
    rw [List.filter_eq_self]
    intro b _
    show ((f b).1.proj == p) = true
    rw [hf b, hp]
  | false =>
    rw [if_neg (by simp)]
    have : ms.filter ((fun r : ProjDataRow × Option PubProjDataRow =>
        r.1.proj == p) ∘ f) = [] := by
      rw [List.filter_eq_nil_iff]
      intro b _
      show ¬((f b).1.proj == p) = true
      rw [hf b, hp]
      simp
    rw [this, List.map_nil]

lemma joinRow_filter_proj (ppd : List PubProjDataRow) (a : ProjDataRow)
    (p : String) :
    (joinRow ppd a).filter (fun r => r.1.proj == p) =
      if a.proj == p then joinRow ppd a else [] := by
  rw [joinRow]
  cases hm : ppd.filter (fun q => q.data_id == a.data_id) with
  | nil =>
    cases hp : a.proj == p with
    | true => simp [hp]
    | false => simp [hp]
  | cons m ms =>
    exact filter_map_const_snd a (m :: ms) _ (fun b => rfl) p

lemma sum_flatMap_join (ppd : List PubProjDataRow) (p : String)
    (g : ProjDataRow × Option PubProjDataRow → ℚ) (v : ProjDataRow → ℚ) :
    ∀ l : List ProjDataRow,
      (∀ a ∈ l, ((joinRow ppd a).map g).sum = v a) →
      (((l.flatMap (joinRow ppd)).filter (fun r => r.1.proj == p)).map g).sum =
        ((l.filter (fun a => a.proj == p)).map v).sum := by
  intro l
  induction l with
  | nil => intro _; simp
  | cons a l ih =>
    intro hv
    rw [List.flatMap_cons, List.filter_append, List.map_append, List.sum_append,
      joinRow_filter_proj, ih (fun x hx => hv x (List.mem_cons_of_mem a hx))]
    have hhead := hv a (List.mem_cons_self a l)
    cases hp : a.proj == p with
    | true =>
      rw [if_pos rfl]
      simp [List.filter_cons, hp, hhead]
    | false =>
      rw [if_neg (by simp)]
      simp [List.filter_cons, hp]

lemma sum_map_ite_filter (l : List ProjDataRow) (p q : ProjDataRow → Bool)
    (f : ProjDataRow → ℚ) :
    ((l.filter p).map (fun a => if q a then f a else 0)).sum =
      ((l.filter (fun a => p a && q a)).map f).sum := by
  induction l with
  | nil => simp
  | cons a l ih =>
    cases hp : p a with
    | true =>
      cases hq : q a with
      | true =>
        rw [List.filter_cons_of_pos hp, List.filter_cons_of_pos (by simp [hp, hq]),
          List.map_cons, List.map_cons, List.sum_cons, List.sum_cons, if_pos hq, ih]
      | false =>
        rw [List.filter_cons_of_pos hp, List.filter_cons_of_neg (by simp [hp, hq]),
          List.map_cons, List.sum_cons, if_neg (by simp [hq]), ih, zero_add]
    | false =>
      rw [List.filter_cons_of_neg (by simp [hp]),
        List.filter_cons_of_neg (by simp [hp]), ih]

lemma totVolQ_eq (pd : List ProjDataRow) (po : List Nat)
    (hnd : (pd.map (fun r => r.data_id)).Nodup) (p : String) :
    totVolQ pd (create_pub_proj_data_table pd po) p =
      ((pd.filter (fun a => a.proj == p)).map
        (fun a => (a.data_size : ℚ))).sum := by
  have hv : ∀ a ∈ pd,
      ((joinRow (create_pub_proj_data_table pd po) a).map
        (fun r => (r.1.data_size : ℚ))).sum = ((fun a : ProjDataRow =>
          (a.data_size : ℚ)) a) := by
    intro a ha
    rw [joinRow_eq pd po hnd a ha]
    cases hb : po.contains a.coll_id && po.contains a.data_id with
    | true => simp
    | false => simp
  rw [totVolQ, leftJoinPub, sum_flatMap_join _ p _ _ pd hv]

lemma pubVolQ_eq (pd : List ProjDataRow) (po : List Nat)
    (hnd : (pd.map (fun r => r.data_id)).Nodup) (p : String) :
    pubVolQ pd (create_pub_proj_data_table pd po) p =
      ((pd.filter (fun a =>
          a.proj == p && (po.contains a.coll_id && po.contains a.data_id))).map
        (fun a => (a.data_size : ℚ))).sum := by
  have hv : ∀ a ∈ pd,
      ((joinRow (create_pub_proj_data_table pd po) a).map
        (fun r => match r.2 with
          | some q => (q.data_size : ℚ)
          | none => 0)).sum = ((fun a : ProjDataRow =>
            if (po.contains a.coll_id && po.contains a.data_id) = true then
              (a.data_size : ℚ) else 0) a) := by
    intro a ha
    rw [joinRow_eq pd po hnd a ha]
    cases hb : po.contains a.coll_id && po.contains a.data_id with
    | true =>
      have hb2 : a.coll_id ∈ po ∧ a.data_id ∈ po := by simpa using hb
      simp [hb2.1, hb2.2]
    | false =>
      have hb2 : ¬(a.coll_id ∈ po ∧ a.data_id ∈ po) := by
        intro hcontr
        have hx : (po.contains a.coll_id && po.contains a.data_id) = true := by
          simp [hcontr.1, hcontr.2]
        rw [hx] at hb
        cases hb
      simp [hb2]
  rw [pubVolQ, leftJoinPub, sum_flatMap_join _ p _ _ pd hv]
  exact sum_map_ite_filter pd _ _ _

lemma totVolQ_nonneg (pd : List ProjDataRow) (po : List Nat)
    (hnd : (pd.map (fun r => r.data_id)).Nodup) (p : String) :
    0 ≤ totVolQ pd (create_pub_proj_data_table pd po) p := by
  rw [totVolQ_eq pd po hnd p]
  apply List.sum_nonneg
  intro x hx
  obtain ⟨a, _, rfl⟩ := List.mem_map.1 hx
  exact Nat.cast_nonneg _

lemma pubVolQ_nonneg (pd : List ProjDataRow) (po : List Nat)
    (hnd : (pd.map (fun r => r.data_id)).Nodup) (p : String) :
    0 ≤ pubVolQ pd (create_pub_proj_data_table pd po) p := by
  rw [pubVolQ_eq pd po hnd p]
  apply List.sum_nonneg
  intro x hx
  obtain ⟨a, _, rfl⟩ := List.mem_map.1 hx
  exact Nat.cast_nonneg _

lemma pubVolQ_le_totVolQ (pd : List ProjDataRow) (po : List Nat)
    (hnd : (pd.map (fun r => r.data_id)).Nodup) (p : String) :
    pubVolQ pd (create_pub_proj_data_table pd po) p ≤
      totVolQ pd (create_pub_proj_data_table pd po) p := by
  rw [totVolQ_eq pd po hnd p, pubVolQ_eq pd po hnd p]
  have hsub : List.Sublist
      (pd.filter (fun a =>
        a.proj == p && (po.contains a.coll_id && po.contains a.data_id)))
      (pd.filter (fun a => a.proj == p)) := by
    have h1 : pd.filter (fun a =>
        a.proj == p && (po.contains a.coll_id && po.contains a.data_id)) =
        (pd.filter (fun a =>
          po.contains a.coll_id && po.contains a.data_id)).filter
          (fun a => a.proj == p) := by
      rw [List.filter_filter]
    rw [h1]
    exact (List.filter_sublist pd).filter _
  refine List.Sublist.sum_le_sum (hsub.map _) ?_
  intro x hx
  obtain ⟨a, _, rfl⟩ := List.mem_map.1 hx
  exact Nat.cast_nonneg _

/-! ## The output ordering -/

lemma insertSorted_perm (s : String) (l : List String) :
    (insertSorted s l).Perm (s :: l) := by
  induction l with
  | nil => exact List.Perm.refl _
  | cons t ts ih =>
    rw [insertSorted]
    by_cases h : charListLe s.data t.data = true
    · rw [if_pos h]
    · rw [if_neg h]
      exact (List.Perm.cons t ih).trans (List.Perm.swap s t ts)

lemma sortStrs_perm (l : List String) : (sortStrs l).Perm l := by
  induction l with
  | nil => exact List.Perm.refl _
  | cons s ss ih =>
    rw [sortStrs]
    exact (insertSorted_perm s (sortStrs ss)).trans (List.Perm.cons s ih)

lemma mem_reportProjs (pd : List ProjDataRow) (p : String) :
    p ∈ reportProjs pd ↔ p ∈ pd.map (fun r => r.proj) := by
  rw [reportProjs, (sortStrs_perm _).mem_iff, List.mem_dedup]

lemma mem_reportRows (pd : List ProjDataRow) (ppd : List PubProjDataRow)
    (row : ReportRow) :
    row ∈ reportRows pd ppd ↔
      ∃ p ∈ reportProjs pd, mkReportRow pd ppd p = row := by
  rw [reportRows, List.mem_map]

/-! ## Lemmas about the collection classifier -/

lemma str_data_append (s t : String) : (s ++ t).data = s.data ++ t.data := rfl

lemma takeWhile_seg_append (seg : List Char) :
    ∀ tail : List Char, (∀ c ∈ seg, (c != '/') = true) →
      (tail = [] ∨ tail.head? = some '/') →
      (seg ++ tail).takeWhile (fun c => c != '/') = seg := by
  induction seg with
  | nil =>
    intro tail _ htail
    rcases htail with h | h
    · simp [h]
    · cases tail with
      | nil => simp
      | cons c cs =>
        have hc : c = '/' := by simpa using h
        simp [hc, List.takeWhile_cons]
  | cons c cs ih =>
    intro tail hseg htail
    have hc : (c != '/') = true := hseg c (List.mem_cons_self c cs)
    rw [List.cons_append, List.takeWhile_cons, if_pos hc,
      ih tail (fun x hx => hseg x (List.mem_cons_of_mem c hx)) htail]

lemma no_slash_of_ne (seg : List Char) (h : '/' ∉ seg) :
    ∀ c ∈ seg, (c != '/') = true := by
  intro c hcmem
  have : c ≠ '/' := fun he => h (he ▸ hcmem)
  simpa using this

/-- A pair with a given coll_id cannot be in proj_coll when the collection
bearing that id fails the WHERE clause (coll ids are unique). -/
lemma not_mem_proj_coll_of_not_selected (cat : Catalog) (zone : String)
    (hc : (cat.r_coll_main.map (fun c => c.coll_id)).Nodup)
    (c : Coll) (hmem : c ∈ cat.r_coll_main)
    (hsel : collSelected zone c = false) :
    ∀ pr, (⟨pr, c.coll_id⟩ : ProjCollRow) ∉ create_proj_coll_table cat zone := by
  intro pr hin
  rw [create_proj_coll_table] at hin
  obtain ⟨c2, hc2, heq⟩ := List.mem_map.1 hin
  have hid : c2.coll_id = c.coll_id := congrArg ProjCollRow.coll_id heq
  have hcc : c2 = c :=
    List.inj_on_of_nodup_map hc (List.mem_filter.1 hc2).1 hmem hid
  have := (List.mem_filter.1 hc2).2
  rw [hcc, hsel] at this
  exact absurd this (by simp)

lemma similarCommons_iff (zone name : String) :
    similarCommons zone name = true ↔
      ∃ (ch : Char) (t : List Char),
        name.data = (sharedRoot zone).data ++
          ("commons".data ++ ch :: ("repo".data ++ t)) ∧
        (t = [] ∨ t.head? = some '/') := by
  constructor
  · intro h
    rw [similarCommons, Bool.and_eq_true] at h
    obtain ⟨h1, h2⟩ := h
    obtain ⟨rest, hrest⟩ := List.isPrefixOf_iff_prefix.1 h1
    have hdrop : name.data.drop
        ((sharedRoot zone).data ++ "commons".data).length = rest := by
      rw [← hrest, List.drop_left]
    rw [hdrop] at h2
    cases rest with
    | nil => cases h2
    | cons x rest2 =>
      rw [Bool.and_eq_true] at h2
      obtain ⟨h3, h4⟩ := h2
      obtain ⟨t0, ht0⟩ := List.isPrefixOf_iff_prefix.1 h3
      have hdrop2 : rest2.drop "repo".data.length = t0 := by
        rw [← ht0, List.drop_left]
      rw [hdrop2] at h4
      refine ⟨x, t0, ?_, ?_⟩
      · rw [← hrest, ← ht0]
        simp [List.append_assoc]
      · rw [Bool.or_eq_true] at h4
        rcases h4 with h5 | h5
        · exact Or.inl (List.isEmpty_iff.mp h5)
        · exact Or.inr (by simpa using h5)
  · rintro ⟨ch, t, hdec, htail⟩
    have hshape : ((sharedRoot zone).data ++ "commons".data) ++
        (ch :: ("repo".data ++ t)) = name.data := by
      rw [hdec, List.append_assoc]
    have hdrop : name.data.drop
        ((sharedRoot zone).data ++ "commons".data).length =
        ch :: ("repo".data ++ t) := by
      rw [← hshape, List.drop_left]
    rw [similarCommons, Bool.and_eq_true]
    constructor
    · exact List.isPrefixOf_iff_prefix.2 ⟨_, hshape⟩
    · rw [hdrop]
      rw [Bool.and_eq_true]
      constructor
      · exact List.isPrefixOf_iff_prefix.2 (List.prefix_append _ _)
      · rw [List.drop_left]
        rcases htail with h | h
        · simp [h]
        · simp [h]

/-- A remainder shorter than the commons-wildcard-repo pattern cannot match
it; discharges the classification hypothesis on concrete short segments. -/
lemma short_no_commons_match (seg tail : List Char)
    (hlen : (seg ++ tail).length < 12) :
    ∀ (ch : Char) (t : List Char),
      seg ++ tail = "commons".data ++ ch :: ("repo".data ++ t) →
      ¬(t = [] ∨ t.head? = some '/') := by
  intro ch t h _
  have h2 := congrArg List.length h
  have hc7 : ("commons".data).length = 7 := by decide
  have hr4 : ("repo".data).length = 4 := by decide
  simp only [List.length_append, List.length_cons, hc7, hr4] at h2 hlen
  omega

/-- C6 (amended): the WHERE clause's SIMILAR TO pattern reads '_' as a
single-character wildcard, so the excluded family is /zone/home/shared/
commons⟨any character⟩repo, alone or with any slash-led remainder: every
collection of that family contributes no proj_coll pair and no proj_data
row; a collection strictly below the shared root with a nonempty slash-free
first segment whose remainder does not match the pattern is assigned that
first segment as its project; and the root path itself yields no pair. -/
theorem C6_commons_repo_and_classification (cat : Catalog) (zone : String)
    (hc : (cat.r_coll_main.map (fun c => c.coll_id)).Nodup) :
    (∀ name : String, similarCommons zone name = true ↔
      ∃ (ch : Char) (t : List Char),
        name.data = (sharedRoot zone).data ++
          ("commons".data ++ ch :: ("repo".data ++ t)) ∧
        (t = [] ∨ t.head? = some '/')) ∧
    (∀ c ∈ cat.r_coll_main, ∀ (ch : Char) (t : List Char),
      c.coll_name.data = (sharedRoot zone).data ++
        ("commons".data ++ ch :: ("repo".data ++ t)) →
      (t = [] ∨ t.head? = some '/') →
      (∀ pr, (⟨pr, c.coll_id⟩ : ProjCollRow) ∉ create_proj_coll_table cat zone) ∧
      (∀ store row,
        row ∈ create_proj_data_table cat (create_proj_coll_table cat zone) store →
        row.coll_id ≠ c.coll_id)) ∧
    (∀ c ∈ cat.r_coll_main, ∀ seg tail : List Char,
      c.coll_name.data = (sharedRoot zone).data ++ (seg ++ tail) →
      seg ≠ [] → '/' ∉ seg → (tail = [] ∨ tail.head? = some '/') →
      (∀ (ch : Char) (t : List Char),
        seg ++ tail = "commons".data ++ ch :: ("repo".data ++ t) →
        ¬(t = [] ∨ t.head? = some '/')) →
      (⟨String.mk seg, c.coll_id⟩ : ProjCollRow) ∈ create_proj_coll_table cat zone) ∧
    (∀ c ∈ cat.r_coll_main, c.coll_name.data ++ ['/'] = (sharedRoot zone).data →
      ∀ pr, (⟨pr, c.coll_id⟩ : ProjCollRow) ∉ create_proj_coll_table cat zone) := by
  refine ⟨fun name => similarCommons_iff zone name, ?_, ?_, ?_⟩
  · intro c hmem ch t hdec htail
    have hsim : similarCommons zone c.coll_name = true :=
      (similarCommons_iff zone c.coll_name).2 ⟨ch, t, hdec, htail⟩
    have hsel : collSelected zone c = false := by
      rw [collSelected, hsim]
      simp
    have hnot := not_mem_proj_coll_of_not_selected cat zone hc c hmem hsel
    refine ⟨hnot, ?_⟩
    intro store row hrow heq
    rw [create_proj_data_table] at hrow
    obtain ⟨c2, hc2, hrow2⟩ := List.mem_flatMap.1 hrow
    obtain ⟨d, _, hd2⟩ := List.mem_map.1 hrow2
    have hcid : c2.coll_id = row.coll_id := congrArg ProjDataRow.coll_id hd2
    have : (⟨c2.proj, c.coll_id⟩ : ProjCollRow) ∈ create_proj_coll_table cat zone := by
      have hid2 : c2.coll_id = c.coll_id := hcid.trans heq
      have hrw : (⟨c2.proj, c.coll_id⟩ : ProjCollRow) = c2 := by
        rw [← hid2]
      rw [hrw]
      exact hc2
    exact hnot c2.proj this
  · intro c hmem seg tail hdata hne hslash htail H
    have hsegall : ∀ x ∈ seg, (x != '/') = true := no_slash_of_ne seg hslash
    have htake : (seg ++ tail).takeWhile (fun x => x != '/') = seg :=
      takeWhile_seg_append seg tail hsegall htail
    have hlike : likeShared zone c.coll_name = true := by
      rw [likeShared, List.isPrefixOf_iff_prefix, hdata]
      exact List.prefix_append _ _
    have hsim : similarCommons zone c.coll_name = false := by
      cases hcase : similarCommons zone c.coll_name with
      | false => rfl
      | true =>
        obtain ⟨ch, t, hdec2, htail2⟩ :=
          (similarCommons_iff zone c.coll_name).1 hcase
        have hst : seg ++ tail = "commons".data ++ ch :: ("repo".data ++ t) :=
          List.append_cancel_left (hdata.symm.trans hdec2)
        exact absurd htail2 (H ch t hst)
    have hsel : collSelected zone c = true := by
      rw [collSelected, hlike, hsim]
      rfl
    have hproj : projOf zone c.coll_name = String.mk seg := by
      rw [projOf, hdata, List.drop_left]
      rw [firstSeg, htake, if_neg hne]
    rw [create_proj_coll_table]
    have : (⟨projOf zone c.coll_name, c.coll_id⟩ : ProjCollRow) ∈
        (cat.r_coll_main.filter (collSelected zone)).map
          (fun x => ⟨projOf zone x.coll_name, x.coll_id⟩) :=
      List.mem_map_of_mem _ (List.mem_filter.2 ⟨hmem, hsel⟩)
    rwa [hproj] at this
  · intro c hmem hbare
    have hlike : likeShared zone c.coll_name = false := by
      rw [likeShared]
      rw [Bool.eq_false_iff]
      intro hpre
      have hle := (List.isPrefixOf_iff_prefix.1 hpre).length_le
      have hlen : (sharedRoot zone).data.length = c.coll_name.data.length + 1 := by
        rw [← hbare, List.length_append]
        rfl
      omega
    exact not_mem_proj_coll_of_not_selected cat zone hc c hmem
      (by rw [collSelected, hlike]; rfl)

/-- The claim, as stated, is false on the code: commonsXrepo lies strictly
below the shared root and is neither the reserved commons_repo path nor
under it, yet the WHERE clause also excludes it ('_' in SIMILAR TO matches
any single character), so it is assigned to no project. -/
theorem C6_counterexample :
    (⟨12, "/zoneX/home/shared/commonsXrepo"⟩ : Coll) ∈ catC.r_coll_main ∧
    (sharedRoot "zoneX").data.isPrefixOf
      ("/zoneX/home/shared/commonsXrepo" : String).data = true ∧
    ("/zoneX/home/shared/commonsXrepo" : String) ≠ commonsRepoPath "zoneX" ∧
    (commonsRepoSub "zoneX").data.isPrefixOf
      ("/zoneX/home/shared/commonsXrepo" : String).data = false ∧
    (create_proj_coll_table catC "zoneX").filter (fun r => r.coll_id == 12) = [] := by
  decide

/-- Witness for C6 on the golden catalog: the commons_repo collection (the
wildcard instance ch = underscore) is in no pair and the project collection
is classified as proj1. -/
theorem C6_witness :
    ((catA.r_coll_main.map (fun c => c.coll_id)).Nodup ∧
      "/zoneX/home/shared/commons_repo/x".data =
        (sharedRoot "zoneX").data ++
          ("commons".data ++ '_' :: ("repo".data ++ "/x".data))) ∧
    (∀ pr, (⟨pr, 11⟩ : ProjCollRow) ∉ create_proj_coll_table catA "zoneX") ∧
    (⟨String.mk "proj1".data, 10⟩ : ProjCollRow) ∈
      create_proj_coll_table catA "zoneX" := by
  have T := C6_commons_repo_and_classification catA "zoneX" (by decide)
  refine ⟨⟨by decide, by decide⟩, ?_, ?_⟩
  · exact (T.2.1 ⟨11, "/zoneX/home/shared/commons_repo/x"⟩ (by decide)
      '_' "/x".data (by decide) (Or.inr (by decide))).1
  · exact T.2.2.1 ⟨10, "/zoneX/home/shared/proj1"⟩ (by decide)
      "proj1".data [] (by decide) (by decide) (by decide) (Or.inl rfl)
      (short_no_commons_match "proj1".data [] (by decide))

/-! ## Lemmas about the interpolated IN list -/

lemma scanLit_no_quote (name : List Char) :
    ∀ rest : List Char, '\'' ∉ name → rest.head? ≠ some '\'' →
      scanLit (name ++ '\'' :: rest) = some (name, rest) := by
  induction name with
  | nil =>
    intro rest _ hr
    cases rest with
    | nil => simp [scanLit]
    | cons c cs =>
      have hc : c ≠ '\'' := by
        intro h
        rw [h] at hr
        exact hr rfl
      simp [scanLit, hc]
  | cons c name ih =>
    intro rest hq hr
    have hc : c ≠ '\'' := fun h => hq (h ▸ List.mem_cons_self c name)
    have hname : '\'' ∉ name := fun h => hq (List.mem_cons_of_mem c h)
    have step : scanLit (c :: (name ++ '\'' :: rest)) =
        (scanLit (name ++ '\'' :: rest)).map (fun p => (c :: p.1, p.2)) := by
      cases hn : name ++ '\'' :: rest with
      | nil => cases name <;> simp at hn
      | cons c2 rest2 => simp [scanLit, hc]
    rw [List.cons_append, step, ih rest hname hr]
    rfl

lemma quoteRoot_data (r : String) :
    (quoteRoot r).data = '\'' :: (r.data ++ ['\'']) := by
  rw [quoteRoot, str_data_append, str_data_append]
  rfl

lemma resourcesStr_cons_data (r r2 : String) (rs : List String) :
    (resourcesStr (r :: r2 :: rs)).data =
      '\'' :: (r.data ++ '\'' :: ',' :: ' ' :: (resourcesStr (r2 :: rs)).data) := by
  have h1 : resourcesStr (r :: r2 :: rs) =
      quoteRoot r ++ ", " ++ resourcesStr (r2 :: rs) := by
    rw [resourcesStr, resourcesStr, List.map_cons, List.map_cons, commaJoin]
  rw [h1, str_data_append, str_data_append, quoteRoot_data]
  simp

lemma parseInList_resourcesStr :
    ∀ (roots : List String) (fuel : Nat), roots ≠ [] →
      (∀ r ∈ roots, '\'' ∉ r.data) →
      (resourcesStr roots).data.length ≤ fuel →
      parseInList fuel (resourcesStr roots).data = some roots := by
  intro roots
  induction roots with
  | nil => intro fuel h; exact absurd rfl h
  | cons r rs ih =>
    intro fuel _ hq hfuel
    have hqr : '\'' ∉ r.data := hq r (List.mem_cons_self r rs)
    cases rs with
    | nil =>
      have hdata : (resourcesStr [r]).data = '\'' :: (r.data ++ '\'' :: []) := by
        rw [resourcesStr, List.map_cons, List.map_nil, commaJoin, quoteRoot_data]
      rw [hdata] at hfuel ⊢
      cases fuel with
      | zero => simp at hfuel
      | succ fuel =>
        rw [parseInList, if_pos rfl,
          scanLit_no_quote r.data [] hqr (by simp)]
    | cons r2 rs2 =>
      have hdata := resourcesStr_cons_data r r2 rs2
      rw [hdata] at hfuel ⊢
      cases fuel with
      | zero => simp at hfuel
      | succ fuel =>
        have hrest : (',' :: ' ' :: (resourcesStr (r2 :: rs2)).data).head? ≠
            some '\'' := by simp
        rw [parseInList, if_pos rfl,
          scanLit_no_quote r.data (',' :: ' ' :: (resourcesStr (r2 :: rs2)).data) hqr hrest]
        have hlen : (resourcesStr (r2 :: rs2)).data.length ≤ fuel := by
          simp only [List.length_cons, List.length_append] at hfuel
          omega
        have hih := ih fuel (by simp) (fun x hx => hq x (List.mem_cons_of_mem r hx)) hlen
        simp only [hih]
        rfl

/-- C9: the seed query splices each root name between single quotes.  For
every nonempty root list in which no name contains a single quote the
constructed IN list lexes back to exactly those names, so the query selects
exactly the resources bearing them; and there is a name containing a single
quote that the constructed text does not treat as an opaque literal. -/
theorem C9_sql_interpolation (cat : Catalog) (roots : List String)
    (h1 : roots ≠ []) (h2 : ∀ r ∈ roots, '\'' ∉ r.data) :
    seedRowsOfSql cat (resourcesStr roots) = some (rescSeed cat roots) ∧
    (∃ r : String, parseRootLiterals (resourcesStr [r]) ≠ some [r]) := by
  constructor
  · rw [seedRowsOfSql, parseRootLiterals,
      parseInList_resourcesStr roots _ h1 h2 le_rfl]
    rfl
  · exact ⟨"a'b", by decide⟩

/-- Witness for C9 at two clean root names on the golden catalog. -/
theorem C9_witness :
    ((["resA", "resB"] : List String) ≠ [] ∧
      (∀ r ∈ (["resA", "resB"] : List String), '\'' ∉ r.data)) ∧
    (seedRowsOfSql catA (resourcesStr ["resA", "resB"]) =
        some (rescSeed catA ["resA", "resB"]) ∧
      (∃ r : String, parseRootLiterals (resourcesStr [r]) ≠ some [r])) :=
  ⟨⟨by decide, by decide⟩,
   C9_sql_interpolation catA ["resA", "resB"] (by decide) (by decide)⟩

lemma pipelinePD_ids_nodup (cat : Catalog) (zone : String) (roots : List String)
    (hd : (cat.r_data_main.map (fun d => d.data_id)).Nodup)
    (hc : (cat.r_coll_main.map (fun c => c.coll_id)).Nodup) :
    ((pipelinePD cat zone roots).map (fun r => r.data_id)).Nodup := by
  rw [pipelinePD]
  exact proj_data_ids_nodup cat _ _ hd (proj_coll_ids_nodup cat zone hc)

lemma sqlRound3_zero : sqlRound3 0 = 0 := by with_unfolding_all decide

/-- C5: every proj_data row stems from a catalog data record stored on a
resource of the resolved set; data on any other resource yields no row; and
no data object identifier occurs twice among the rows, so none is
double-counted in its project's total. -/
theorem C5_aggregator_restricted_and_unique (cat : Catalog) (zone : String)
    (roots : List String)
    (hd : (cat.r_data_main.map (fun d => d.data_id)).Nodup)
    (hc : (cat.r_coll_main.map (fun c => c.coll_id)).Nodup) :
    (∀ row ∈ pipelinePD cat zone roots,
      ∃ d ∈ cat.r_data_main, d.data_id = row.data_id ∧ d.coll_id = row.coll_id ∧
        d.data_size = row.data_size ∧ d.resc_id ∈ pipelineStore cat roots) ∧
    ((pipelinePD cat zone roots).map (fun r => r.data_id)).Nodup ∧
    (∀ d ∈ cat.r_data_main, d.resc_id ∉ pipelineStore cat roots →
      ∀ row ∈ pipelinePD cat zone roots, row.data_id ≠ d.data_id) := by
  have h1 : ∀ row ∈ pipelinePD cat zone roots,
      ∃ d ∈ cat.r_data_main, d.data_id = row.data_id ∧ d.coll_id = row.coll_id ∧
        d.data_size = row.data_size ∧ d.resc_id ∈ pipelineStore cat roots := by
    intro row hrow
    rw [pipelinePD, create_proj_data_table] at hrow
    obtain ⟨c, _, h2⟩ := List.mem_flatMap.1 hrow
    obtain ⟨d, hdmem, heq⟩ := List.mem_map.1 h2
    have hdm := List.mem_filter.1 hdmem
    have hcond := hdm.2
    simp only [Bool.and_eq_true, beq_iff_eq] at hcond
    refine ⟨d, hdm.1, ?_, ?_, ?_, ?_⟩
    · exact (congrArg ProjDataRow.data_id heq).symm ▸ rfl
    · rw [← heq]
      exact hcond.1
    · exact (congrArg ProjDataRow.data_size heq).symm ▸ rfl
    · simpa [pipelineStore] using hcond.2
  refine ⟨h1, pipelinePD_ids_nodup cat zone roots hd hc, ?_⟩
  intro d hdmem hdnot row hrow heq
  obtain ⟨d2, hd2mem, e1, _, _, hres2⟩ := h1 row hrow
  have hdd : d2 = d := by
    refine List.inj_on_of_nodup_map hd hd2mem hdmem ?_
    show d2.data_id = d.data_id
    rw [e1, heq]
  rw [hdd] at hres2
  exact hdnot hres2

/-- Witness for C5 on the golden catalog. -/
theorem C5_witness :
    ((catA.r_data_main.map (fun d => d.data_id)).Nodup ∧
      (catA.r_coll_main.map (fun c => c.coll_id)).Nodup) ∧
    ((pipelinePD catA "zoneX" ["resA"]).map (fun r => r.data_id)).Nodup :=
  ⟨⟨by decide, by decide⟩,
   (C5_aggregator_restricted_and_unique catA "zoneX" ["resA"]
     (by decide) (by decide)).2.1⟩

/-- C1: a pub_proj_data row exists exactly for the proj_data rows whose
collection id AND data object id both carry a public access entry, and the
public volume of each project group equals the byte sum over exactly those
rows: one public side alone contributes nothing. -/
theorem C1_public_needs_both_ids (cat : Catalog) (zone : String)
    (roots : List String)
    (hd : (cat.r_data_main.map (fun d => d.data_id)).Nodup)
    (hc : (cat.r_coll_main.map (fun c => c.coll_id)).Nodup) :
    (∀ prow : PubProjDataRow, prow ∈ pipelinePPD cat zone roots ↔
      ∃ a ∈ pipelinePD cat zone roots, a.proj = prow.proj ∧
        a.data_id = prow.data_id ∧ a.data_size = prow.data_size ∧
        a.coll_id ∈ pipelinePO cat ∧ a.data_id ∈ pipelinePO cat) ∧
    (∀ p, pubVolQ (pipelinePD cat zone roots) (pipelinePPD cat zone roots) p =
      (((pipelinePD cat zone roots).filter (fun a => a.proj == p &&
          ((pipelinePO cat).contains a.coll_id &&
            (pipelinePO cat).contains a.data_id))).map
        (fun a => (a.data_size : ℚ))).sum) := by
  constructor
  · intro prow
    rw [pipelinePPD, create_pub_proj_data_table]
    constructor
    · intro hin
      obtain ⟨a, hamem, heq⟩ := List.mem_map.1 hin
      have ham := List.mem_filter.1 hamem
      have hcond := ham.2
      simp only [Bool.and_eq_true] at hcond
      refine ⟨a, ham.1, ?_, ?_, ?_, ?_, ?_⟩
      · exact (congrArg PubProjDataRow.proj heq).symm ▸ rfl
      · exact (congrArg PubProjDataRow.data_id heq).symm ▸ rfl
      · exact (congrArg PubProjDataRow.data_size heq).symm ▸ rfl
      · simpa using hcond.1
      · simpa using hcond.2
    · intro ⟨a, hamem, h1, h2, h3, h4, h5⟩
      have hfa : a ∈ (pipelinePD cat zone roots).filter
          (fun r => (pipelinePO cat).contains r.coll_id &&
            (pipelinePO cat).contains r.data_id) := by
        refine List.mem_filter.2 ⟨hamem, ?_⟩
        simp [h4, h5]
      have := List.mem_map_of_mem
        (fun r : ProjDataRow =>
          (⟨r.proj, r.data_id, r.data_size⟩ : PubProjDataRow)) hfa
      have hrw : (⟨a.proj, a.data_id, a.data_size⟩ : PubProjDataRow) = prow := by
        rw [h1, h2, h3]
      have hmem2 : (⟨a.proj, a.data_id, a.data_size⟩ : PubProjDataRow) ∈
          ((pipelinePD cat zone roots).filter
            (fun r => (pipelinePO cat).contains r.coll_id &&
              (pipelinePO cat).contains r.data_id)).map
            (fun r : ProjDataRow =>
              (⟨r.proj, r.data_id, r.data_size⟩ : PubProjDataRow)) := this
      rwa [hrw] at hmem2
  · intro p
    rw [pipelinePPD]
    exact pubVolQ_eq (pipelinePD cat zone roots) (pipelinePO cat)
      (pipelinePD_ids_nodup cat zone roots hd hc) p

/-- Witness for C1 on the golden catalog: the single data object is public
together with its collection, so its pub_proj_data row exists. -/
theorem C1_witness :
    ((catA.r_data_main.map (fun d => d.data_id)).Nodup ∧
      (catA.r_coll_main.map (fun c => c.coll_id)).Nodup) ∧
    (⟨"proj1", 100, 1073741824⟩ : PubProjDataRow) ∈
      pipelinePPD catA "zoneX" ["resA"] :=
  ⟨⟨by decide, by decide⟩,
   ((C1_public_needs_both_ids catA "zoneX" ["resA"] (by decide) (by decide)).1
     ⟨"proj1", 100, 1073741824⟩).mpr
     ⟨⟨"proj1", 10, 100, 1073741824⟩, by decide, rfl, rfl, rfl, by decide,
       by decide⟩⟩

/-- C3 (amended): the program emits no report rows at all, because the final
query's creator/owner column references do not resolve (the code bug of C2);
for the rows that query's SELECT list otherwise specifies per project group,
Total ≥ Public ≥ 0 and Private ≥ 0 hold, and a project none of whose rows
pass the public filter gets Public = 0 (never null, COALESCE); the Private
column is the rounded difference of the byte volumes, which can differ from
Total − Public by one unit in the third decimal. -/
theorem C3_volume_invariants (cat : Catalog) (zone : String)
    (roots : List String)
    (hd : (cat.r_data_main.map (fun d => d.data_id)).Nodup)
    (hc : (cat.r_coll_main.map (fun c => c.coll_id)).Nodup) :
    (∀ rows, gen_report cat zone roots ≠ .ok rows) ∧
    (∀ row ∈ reportRows (pipelinePD cat zone roots) (pipelinePPD cat zone roots),
      row.Public ≤ row.Total ∧ 0 ≤ row.Public ∧ 0 ≤ row.Private ∧
      ((∀ a ∈ pipelinePD cat zone roots, a.proj = row.Project →
          ¬(a.coll_id ∈ pipelinePO cat ∧ a.data_id ∈ pipelinePO cat)) →
        row.Public = 0)) := by
  refine ⟨gen_report_never_ok cat zone roots, ?_⟩
  intro row hrow
  obtain ⟨p, _, hmk⟩ := (mem_reportRows _ _ row).1 hrow
  have hnd := pipelinePD_ids_nodup cat zone roots hd hc
  have hple := pubVolQ_le_totVolQ (pipelinePD cat zone roots) (pipelinePO cat) hnd p
  have hpnn := pubVolQ_nonneg (pipelinePD cat zone roots) (pipelinePO cat) hnd p
  rw [← hmk]
  simp only [mkReportRow, pipelinePPD] at hple hpnn ⊢
  have hc30 : (0 : ℚ) < 2^30 := by norm_num
  refine ⟨?_, ?_, ?_, ?_⟩
  · exact sqlRound3_mono (div_nonneg hpnn (le_of_lt hc30))
      ((div_le_div_iff_of_pos_right hc30).mpr hple)
  · exact sqlRound3_nonneg (div_nonneg hpnn (le_of_lt hc30))
  · refine sqlRound3_nonneg (div_nonneg ?_ (le_of_lt hc30))
    linarith
  · intro hnone
    have hzero : pubVolQ (pipelinePD cat zone roots)
        (create_pub_proj_data_table (pipelinePD cat zone roots)
          (pipelinePO cat)) p = 0 := by
      rw [pubVolQ_eq (pipelinePD cat zone roots) (pipelinePO cat) hnd p]
      have hfil : (pipelinePD cat zone roots).filter (fun a => a.proj == p &&
          ((pipelinePO cat).contains a.coll_id &&
            (pipelinePO cat).contains a.data_id)) = [] := by
        rw [List.filter_eq_nil_iff]
        intro a ha hcond
        simp only [Bool.and_eq_true, beq_iff_eq] at hcond
        refine hnone a ha hcond.1 ⟨?_, ?_⟩
        · simpa using hcond.2.1
        · simpa using hcond.2.2
      rw [hfil, List.map_nil, List.sum_nil]
    rw [hzero]
    have : (0 : ℚ) / 2^30 = 0 := by norm_num
    rw [this, sqlRound3_zero]

set_option maxRecDepth 1000000 in
/-- The claim, as stated, fails at this input twice over: the program emits
no report at all (the final SELECT is rejected, undefined column creator),
and the row that SELECT's arithmetic specifies for the input — two
322123-byte objects, one public together with its collection — reads
Total = 0.001, Public = 0.000, Private = 0.000, violating
Private = Total − Public = 0.001. -/
theorem C3_counterexample :
    runPipeline catB ["resA"] = .error (.undefinedColumn "creator") ∧
    reportRows (pipelinePD catB "zoneX" ["resA"])
      (pipelinePPD catB "zoneX" ["resA"]) = [⟨1/1000, 0, 0, "proj1"⟩] ∧
    (⟨1/1000, 0, 0, "proj1"⟩ : ReportRow).Private ≠
      (⟨1/1000, 0, 0, "proj1"⟩ : ReportRow).Total -
        (⟨1/1000, 0, 0, "proj1"⟩ : ReportRow).Public := by
  refine ⟨?_, ?_, ?_⟩
  · with_unfolding_all rfl
  · with_unfolding_all decide
  · show (0 : ℚ) ≠ 1/1000 - 0
    norm_num

set_option maxRecDepth 1000000 in
/-- Witness for the amended C3 at the counterexample catalog's report row. -/
theorem C3_witness :
    ((catB.r_data_main.map (fun d => d.data_id)).Nodup ∧
      (catB.r_coll_main.map (fun c => c.coll_id)).Nodup) ∧
    (∀ rows, gen_report catB "zoneX" ["resA"] ≠ .ok rows) ∧
    ((⟨1/1000, 0, 0, "proj1"⟩ : ReportRow).Public ≤
        (⟨1/1000, 0, 0, "proj1"⟩ : ReportRow).Total ∧
      0 ≤ (⟨1/1000, 0, 0, "proj1"⟩ : ReportRow).Public ∧
      0 ≤ (⟨1/1000, 0, 0, "proj1"⟩ : ReportRow).Private ∧
      ((∀ a ∈ pipelinePD catB "zoneX" ["resA"],
          a.proj = (⟨1/1000, 0, 0, "proj1"⟩ : ReportRow).Project →
          ¬(a.coll_id ∈ pipelinePO catB ∧ a.data_id ∈ pipelinePO catB)) →
        (⟨1/1000, 0, 0, "proj1"⟩ : ReportRow).Public = 0)) :=
  ⟨⟨by decide, by decide⟩,
   (C3_volume_invariants catB "zoneX" ["resA"] (by decide) (by decide)).1,
   (C3_volume_invariants catB "zoneX" ["resA"] (by decide) (by decide)).2
     ⟨1/1000, 0, 0, "proj1"⟩ (by with_unfolding_all decide)⟩

set_option maxRecDepth 1000000 in
/-- C8: the claim correctly describes the arithmetic of the final query's
SELECT list — each numeric column is the corresponding per-project byte sum
divided by 2^30, rounded half away from zero to three decimals, and on the
golden scenario of one public 2^30-byte object the specified row is
Total = 1.000, Public = 1.000, Private = 0.000 — but the program never
emits it: the same query's creator/owner references are rejected as
undefined columns (the code bug recorded under C2), shown by evaluating the
pipeline on the scenario catalog. -/
theorem C8_gib_rounding (cat : Catalog) (zone : String) (roots : List String)
    (hd : (cat.r_data_main.map (fun d => d.data_id)).Nodup)
    (hc : (cat.r_coll_main.map (fun c => c.coll_id)).Nodup) :
    runPipeline catA ["resA"] = .error (.undefinedColumn "creator") ∧
    (∀ row ∈ reportRows (pipelinePD cat zone roots) (pipelinePPD cat zone roots),
      row.Total = sqlRound3 ((((pipelinePD cat zone roots).filter
          (fun a => a.proj == row.Project)).map
          (fun a => (a.data_size : ℚ))).sum / 2^30) ∧
      row.Public = sqlRound3 ((((pipelinePD cat zone roots).filter
          (fun a => a.proj == row.Project &&
            ((pipelinePO cat).contains a.coll_id &&
              (pipelinePO cat).contains a.data_id))).map
          (fun a => (a.data_size : ℚ))).sum / 2^30) ∧
      row.Private = sqlRound3 (((((pipelinePD cat zone roots).filter
          (fun a => a.proj == row.Project)).map
          (fun a => (a.data_size : ℚ))).sum -
        (((pipelinePD cat zone roots).filter
          (fun a => a.proj == row.Project &&
            ((pipelinePO cat).contains a.coll_id &&
              (pipelinePO cat).contains a.data_id))).map
          (fun a => (a.data_size : ℚ))).sum) / 2^30)) ∧
    reportRows (pipelinePD catA "zoneX" ["resA"])
      (pipelinePPD catA "zoneX" ["resA"]) = [⟨1, 1, 0, "proj1"⟩] := by
  refine ⟨by with_unfolding_all rfl, ?_, by with_unfolding_all decide⟩
  intro row hrow
  obtain ⟨p, _, hmk⟩ := (mem_reportRows _ _ row).1 hrow
  have hnd := pipelinePD_ids_nodup cat zone roots hd hc
  rw [← hmk]
  have hproj : (mkReportRow (pipelinePD cat zone roots)
      (pipelinePPD cat zone roots) p).Project = p := rfl
  rw [hproj]
  simp only [mkReportRow, pipelinePPD]
  rw [totVolQ_eq (pipelinePD cat zone roots) (pipelinePO cat) hnd p,
    pubVolQ_eq (pipelinePD cat zone roots) (pipelinePO cat) hnd p]
  exact ⟨rfl, rfl, rfl⟩

set_option maxRecDepth 1000000 in
/-- Witness for C8: the hypotheses hold on the golden catalog; the pipeline
aborts on the undefined column while the SELECT-list arithmetic specifies
the spec's golden row. -/
theorem C8_witness :
    ((catA.r_data_main.map (fun d => d.data_id)).Nodup ∧
      (catA.r_coll_main.map (fun c => c.coll_id)).Nodup) ∧
    (runPipeline catA ["resA"] = .error (.undefinedColumn "creator") ∧
      reportRows (pipelinePD catA "zoneX" ["resA"])
        (pipelinePPD catA "zoneX" ["resA"]) = [⟨1, 1, 0, "proj1"⟩]) :=
  ⟨⟨by decide, by decide⟩,
   (C8_gib_rounding catA "zoneX" ["resA"] (by decide) (by decide)).1,
   (C8_gib_rounding catA "zoneX" ["resA"] (by decide) (by decide)).2.2⟩

end IrodsAdm
